import Mathlib

-- Verification development for the Personal-Bot-API query pipeline.
-- Shallow embedding of app/context_loader.py (chunk_text), app/gemini.py
-- (create_prompt, ask_gemini, ask_gemini_async) and app/ask.py
-- (get_relevant_context, handle_question, handle_question_async).
-- Text is modelled at word granularity: a document is the list of words
-- produced by Python's str.split(); a chunk is a list of words
-- (the source joins them back with single spaces).

namespace PersonalBot
-- ## Chunker: app/context_loader.py, chunk_text

-- The loop `for i in range(0, total_words, chunk_size - overlap)` of
-- chunk_text.  `fuel` bounds the number of word indices still reachable;
-- chunk_text calls it with fuel = words.length, which suffices because a
-- positive stride advances i by at least one per iteration.  Each window is
-- words[i : min(i + chunk_size, total)], i.e. (words.drop i).take chunk_size,
-- and the loop breaks once a window reaches the end of the text.
def chunkLoop (words : List String) (chunk_size stride : Nat) : Nat → Nat → List (List String)
  | _, 0 => []
  | i, fuel + 1 =>
    if i < words.length then
      if words.length ≤ i + chunk_size then
        [(words.drop i).take chunk_size]
      else
        (words.drop i).take chunk_size :: chunkLoop words chunk_size stride (i + stride) fuel
    else []

-- chunk_text(text, chunk_size, overlap).  `Except.error ()` models the
-- ValueError raised by `range(0, total, 0)` when overlap = chunk_size; when
-- overlap > chunk_size the Python stride is negative, so the range is empty
-- and the function returns the empty chunk list.
def chunk_text (words : List String) (chunk_size overlap : Nat) :
    Except Unit (List (List String)) :=
  if words.length ≤ chunk_size then Except.ok [words]
  else if overlap = chunk_size then Except.error ()
  else if chunk_size < overlap then Except.ok []
  else Except.ok (chunkLoop words chunk_size (chunk_size - overlap) 0 words.length)

-- 100 distinct words, as in the spec's concrete chunking example.
def exWords : List String := (List.range 100).map (fun n => String.append "w" (toString n))

-- ## Completion client: app/gemini.py

-- Parsed JSON success body of the completion service.  Option models an
-- absent key: a candidate may lack "content", a content may lack "parts",
-- a part may lack "text".
structure GeminiPart where
  text : Option String
deriving DecidableEq, Repr

structure GeminiContent where
  parts : Option (List GeminiPart)
deriving DecidableEq, Repr

structure GeminiCandidate where
  content : Option GeminiContent
deriving DecidableEq, Repr

structure GeminiResponse where
  candidates : List GeminiCandidate
deriving DecidableEq, Repr

-- Outcome of one underlying HTTP call (requests.post in ask_gemini,
-- httpx post in ask_gemini_async).
-- httpStatus c: a response for which raise_for_status() raises an HTTP
--   status error (constructed only for codes c ≥ 400);
-- timeout / connError / requestError: the transport exceptions listed in
--   RETRY_EXCEPTIONS (requests.exceptions.Timeout / ConnectionError /
--   RequestException, and their httpx counterparts);
-- otherError: an exception outside those hierarchies.
inductive HttpResult where
  | success (body : GeminiResponse)
  | httpStatus (code : Nat)
  | timeout
  | connError
  | requestError
  | otherError
deriving DecidableEq, Repr

def fallback_unparseable : String :=
  "I\x27m sorry, I couldn\x27t process your question properly. Please try again."

def fallback_request_error : String :=
  "I\x27m sorry, there was an error processing your request. Please try again later."

def fallback_unexpected : String :=
  "I\x27m sorry, an unexpected error occurred. Please try again later."

def fallback_handle : String :=
  "I\x27m sorry, I encountered an error while processing your question. Please try again later."

def create_prompt (question context : String) : String :=
  "Context information is below.\n---------------------\n" ++ context ++
  "\n---------------------\nGiven the context information and not prior knowledge, answer the question: "
  ++ question ++
  "\nIf the answer cannot be found in the context, say \"I don\x27t have enough information to answer this question.\"\n"

-- The response-parsing step shared by both call paths:
-- if candidates and "content" in candidates[0] and "parts" in
-- candidates[0]["content"] then candidates[0]["content"]["parts"][0]["text"]
-- is accessed, which raises IndexError on an empty parts list and KeyError
-- on a part without "text" (modelled as Except.error ()); if the guard fails
-- the fixed "could not process" fallback is returned.
def parse_response (body : GeminiResponse) : Except Unit String :=
  match body.candidates with
  | [] => Except.ok fallback_unparseable
  | c :: _ =>
    match c.content with
    | none => Except.ok fallback_unparseable
    | some ct =>
      match ct.parts with
      | none => Except.ok fallback_unparseable
      | some [] => Except.error ()
      | some (p :: _) =>
        match p.text with
        | none => Except.error ()
        | some t => Except.ok t

-- One body execution of ask_gemini, with its except clauses applied.
-- ret s: the function body returns string s;
-- reraise: an exception in RETRY_EXCEPTIONS propagates to the tenacity
--   retry decorator (the 429 branch re-raises the HTTPError; the network
--   exceptions are re-raised by the `except RETRY_EXCEPTIONS` clause).
-- Any other HTTP status error returns the request-error fallback without
-- retrying; parse exceptions and non-requests exceptions are caught by the
-- final `except Exception` and return the unexpected-error fallback.
inductive AttemptOutcome where
  | ret (s : String)
  | reraise
deriving DecidableEq, Repr

def gemini_attempt (r : HttpResult) : AttemptOutcome :=
  match r with
  | HttpResult.success body =>
    match parse_response body with
    | Except.ok s => AttemptOutcome.ret s
    | Except.error _ => AttemptOutcome.ret fallback_unexpected
  | HttpResult.httpStatus code =>
    if code = 429 then AttemptOutcome.reraise else AttemptOutcome.ret fallback_request_error
  | HttpResult.timeout => AttemptOutcome.reraise
  | HttpResult.connError => AttemptOutcome.reraise
  | HttpResult.requestError => AttemptOutcome.reraise
  | HttpResult.otherError => AttemptOutcome.ret fallback_unexpected

-- An outcome r is transient exactly when the attempt re-raises into the
-- retry decorator.
def isTransient (r : HttpResult) : Bool :=
  match gemini_attempt r with
  | AttemptOutcome.reraise => true
  | AttemptOutcome.ret _ => false

-- Result of a whole call: the prompt built for it, the returned string or
-- the propagated exception (Except.error ()), and how many times the
-- underlying HTTP call ran.
structure CallTrace where
  prompt : String
  result : Except Unit String
  attempts : Nat
deriving Repr

-- The tenacity loop: @retry(stop=stop_after_attempt(m), reraise=True,
-- retry=retry_if_exception_type(RETRY_EXCEPTIONS)).  outcomes n is the
-- result of the (i+n)-th underlying HTTP call; `rem` counts remaining
-- attempts.  With reraise=True, exhausting the attempts re-raises the last
-- transient exception instead of wrapping it.
def askGeminiLoop (outcomes : Nat → HttpResult) : Nat → Nat → Except Unit String × Nat
  | i, 0 => (Except.error (), i)
  | i, rem + 1 =>
    match gemini_attempt (outcomes i) with
    | AttemptOutcome.ret s => (Except.ok s, i + 1)
    | AttemptOutcome.reraise =>
      if rem = 0 then (Except.error (), i + 1) else askGeminiLoop outcomes (i + 1) rem

-- ask_gemini(question, context) under MAX_RETRIES = m, driven by the stream
-- of HTTP outcomes.
def ask_gemini (question context : String) (outcomes : Nat → HttpResult) (m : Nat) :
    CallTrace :=
  { prompt := create_prompt question context
    result := (askGeminiLoop outcomes 0 m).1
    attempts := (askGeminiLoop outcomes 0 m).2 }

-- ask_gemini_async(question, context): a single httpx call with no retry
-- decorator; only httpx.HTTPStatusError and httpx.RequestError are caught
-- (returning the request-error fallback), so parse exceptions and non-httpx
-- exceptions propagate to the caller.
def ask_gemini_async (question context : String) (r : HttpResult) : CallTrace :=
  { prompt := create_prompt question context
    result :=
      match r with
      | HttpResult.success body =>
        match parse_response body with
        | Except.ok s => Except.ok s
        | Except.error _ => Except.error ()
      | HttpResult.httpStatus _ => Except.ok fallback_request_error
      | HttpResult.timeout => Except.ok fallback_request_error
      | HttpResult.connError => Except.ok fallback_request_error
      | HttpResult.requestError => Except.ok fallback_request_error
      | HttpResult.otherError => Except.error ()
    attempts := 1 }

-- ## Query pipeline: app/ask.py

-- Embedding vector; its numeric content is irrelevant to the claims, only
-- identity and storage matter.
abbrev Embedding := List Int

-- Outcome of model.encode([question]) — success or a raised exception.
inductive EmbedResult where
  | ok (v : Embedding)
  | exc
deriving DecidableEq, Repr

-- Outcome of the pgvector similarity query:
-- rows rs: fetchall() returns the contents, nearest first (the SQL LIMIT
--   makes the store return at most top_k rows);
-- exc: db.execute/fetchall raised (caught by the inner except);
-- connExc: get_db() itself raised (caught by the outer except).
inductive DbResult where
  | rows (rs : List String)
  | exc
  | connExc
deriving DecidableEq, Repr

-- External environment of the pipeline: the md5 hex digest (an opaque
-- string-to-string map), the embedding model, the vector store, and the
-- module configuration (TOP_K_RESULTS, CACHE_TTL, RESPONSE_CACHE_SIZE,
-- GEMINI_MAX_RETRIES) plus the stream of completion-service HTTP outcomes.
structure Env where
  hash : String → String
  encode : String → EmbedResult
  db : Embedding → Nat → DbResult
  topK : Nat
  ttl : Nat
  maxsize : Nat
  completion : Nat → HttpResult
  maxRetries : Nat

-- One entry of the cachetools.TTLCache response_cache.
structure CacheEntry where
  key : String
  value : String
  expiry : Nat
deriving DecidableEq, Repr

-- Process state of app/ask.py: the question_to_embedding dict (a plain,
-- insertion-ordered, unbounded Python dict), the TTL response cache, the
-- clock, and instrumentation counters (number of get_relevant_context
-- invocations, of ask_gemini/ask_gemini_async invocations, and of
-- underlying completion HTTP attempts consumed from Env.completion).
structure QState where
  question_to_embedding : List (String × Embedding)
  response_cache : List CacheEntry
  now : Nat
  retrievalCalls : Nat
  completionCalls : Nat
  geminiAttempts : Nat
deriving Repr

-- TTLCache lookup: `key in cache` / `cache[key]` succeeds when an entry
-- with that key is present and not yet expired.
def cacheLookup (cache : List CacheEntry) (k : String) (now : Nat) : Option String :=
  match cache.find? (fun e => e.key == k && decide (now < e.expiry)) with
  | some e => some e.value
  | none => none

-- TTLCache store: drop expired entries, drop any previous entry for the
-- key, evict oldest entries if at capacity, then append the fresh entry
-- with expiry now + ttl.
def cacheInsert (cache : List CacheEntry) (k v : String) (now ttl maxsize : Nat) :
    List CacheEntry :=
  let live := (cache.filter (fun e => decide (now < e.expiry))).filter
    (fun e => !(e.key == k))
  let room := if maxsize ≤ live.length then live.drop (live.length + 1 - maxsize) else live
  room ++ [⟨k, v, now + ttl⟩]

-- Python dict lookup and store for question_to_embedding.
def dictLookup (d : List (String × Embedding)) (k : String) : Option Embedding :=
  match d.find? (fun p => p.1 == k) with
  | some p => some p.2
  | none => none

def dictInsert (d : List (String × Embedding)) (k : String) (v : Embedding) :
    List (String × Embedding) :=
  match dictLookup d k with
  | some _ => d.map (fun p => if p.1 == k then (k, v) else p)
  | none => d ++ [(k, v)]

-- The database part of get_relevant_context: the `with get_db()` block and
-- the inner try.  Every failure path returns "" (graceful degradation); a
-- nonempty result list is joined with a double newline in store order.
def grcQuery (env : Env) (v : Embedding) (top_k : Nat) (st : QState) : String × QState :=
  match env.db v top_k with
  | DbResult.connExc => ("", st)
  | DbResult.exc => ("", st)
  | DbResult.rows [] => ("", st)
  | DbResult.rows (r :: rs) => (String.intercalate "\n\n" (r :: rs), st)

-- get_relevant_context(question, top_k): md5-hash the question, reuse the
-- cached embedding from question_to_embedding or encode and store a new one
-- (the dict write precedes the db call, so it persists even when the query
-- then fails), then run the similarity query.  The retrievalCalls counter
-- instruments each invocation; the source never raises from this function.
def get_relevant_context (env : Env) (question : String) (top_k : Nat) (st : QState) :
    String × QState :=
  let st0 := { st with retrievalCalls := st.retrievalCalls + 1 }
  let h := env.hash question
  match dictLookup st0.question_to_embedding h with
  | some v => grcQuery env v top_k st0
  | none =>
    match env.encode question with
    | EmbedResult.exc => ("", st0)
    | EmbedResult.ok v =>
      grcQuery env v top_k
        { st0 with question_to_embedding := dictInsert st0.question_to_embedding h v }

-- The embedding get_relevant_context ends up using: the cached one, else
-- the freshly encoded one, else none when encoding raises.
def grcEmbedding (env : Env) (question : String) (st : QState) : Option Embedding :=
  match dictLookup st.question_to_embedding (env.hash question) with
  | some v => some v
  | none =>
    match env.encode question with
    | EmbedResult.ok v => some v
    | EmbedResult.exc => none

-- ask_gemini as invoked from handle_question: consumes HTTP outcomes from
-- the environment stream starting at the current attempt counter.
def ask_gemini_st (env : Env) (question context : String) (st : QState) :
    Except Unit String × QState :=
  let t := ask_gemini question context (fun n => env.completion (st.geminiAttempts + n))
    env.maxRetries
  (t.result,
   { st with geminiAttempts := st.geminiAttempts + t.attempts
             completionCalls := st.completionCalls + 1 })

-- The body of handle_question's try block before the cache write:
-- get_relevant_context followed by ask_gemini.
def hq_miss (env : Env) (question : String) (st : QState) : Except Unit String × QState :=
  let r := get_relevant_context env question env.topK st
  ask_gemini_st env question r.1 r.2

-- handle_question(question): serve from the response cache when the hashed
-- question is present and unexpired; otherwise retrieve context, query
-- Gemini, cache whatever string was returned (line 150 caches the response
-- unconditionally), and convert any exception into the fixed apology.
def handle_question (env : Env) (question : String) (st : QState) :
    Except Unit String × QState :=
  let h := env.hash question
  match cacheLookup st.response_cache h st.now with
  | some a => (Except.ok a, st)
  | none =>
    let r := hq_miss env question st
    match r.1 with
    | Except.ok a =>
      (Except.ok a,
       { r.2 with response_cache :=
          cacheInsert r.2.response_cache h a r.2.now env.ttl env.maxsize })
    | Except.error _ => (Except.ok fallback_handle, r.2)

-- handle_question_async(question): same cache check, then
-- get_relevant_context and a single ask_gemini_async call; the response is
-- cached unconditionally, and — with no try/except in this function — an
-- exception from ask_gemini_async propagates to the caller.
def handle_question_async (env : Env) (question : String) (st : QState) :
    Except Unit String × QState :=
  let h := env.hash question
  match cacheLookup st.response_cache h st.now with
  | some a => (Except.ok a, st)
  | none =>
    let r := get_relevant_context env question env.topK st
    let t := ask_gemini_async question r.1 (env.completion r.2.geminiAttempts)
    let st2 := { r.2 with geminiAttempts := r.2.geminiAttempts + 1
                          completionCalls := r.2.completionCalls + 1 }
    match t.result with
    | Except.ok a =>
      (Except.ok a,
       { st2 with response_cache :=
          cacheInsert st2.response_cache h a st2.now env.ttl env.maxsize })
    | Except.error e => (Except.error e, st2)

-- Iterated retrieval, as driven from repeated questions.
def runRetrieval (env : Env) (qs : List String) (st : QState) : QState :=
  qs.foldl (fun s q => (get_relevant_context env q env.topK s).2) st

-- Concrete environment: identity hash, embedding model that always
-- succeeds, a store answering two chunks, a transport that always times
-- out, with the module defaults TOP_K_RESULTS=3, CACHE_TTL=3600,
-- RESPONSE_CACHE_SIZE=100, GEMINI_MAX_RETRIES=3.
def envRows : Env :=
  { hash := fun s => s
    encode := fun _ => EmbedResult.ok []
    db := fun _ _ => DbResult.rows ["c1", "c2"]
    topK := 3
    ttl := 3600
    maxsize := 100
    completion := fun _ => HttpResult.timeout
    maxRetries := 3 }

def initState : QState :=
  { question_to_embedding := []
    response_cache := []
    now := 0
    retrievalCalls := 0
    completionCalls := 0
    geminiAttempts := 0 }

-- Explicit single-field state updates (record-update sugar on a compound
-- term does not parse in statements).
def withCache (st : QState) (c : List CacheEntry) : QState :=
  { st with response_cache := c }

def withNow (st : QState) (n : Nat) : QState :=
  { st with now := n }

-- Environment whose completion service answers a well-formed body.
def goodBody : GeminiResponse :=
  { candidates := [{ content := some { parts := some [{ text := some "the answer" }] } }] }

def envGood : Env :=
  { hash := fun s => s
    encode := fun _ => EmbedResult.ok []
    db := fun _ _ => DbResult.rows ["ctx"]
    topK := 3
    ttl := 3600
    maxsize := 100
    completion := fun _ => HttpResult.success goodBody
    maxRetries := 3 }

-- Environment whose completion service answers HTTP 404 on every attempt.
def env404 : Env :=
  { hash := fun s => s
    encode := fun _ => EmbedResult.ok []
    db := fun _ _ => DbResult.rows ["ctx"]
    topK := 3
    ttl := 3600
    maxsize := 100
    completion := fun _ => HttpResult.httpStatus 404
    maxRetries := 3 }

-- Malformed success body: the guard `candidates and "content" in ... and
-- "parts" in ...` passes but parts is empty, so parts[0] raises IndexError.
def badBody : GeminiResponse :=
  { candidates := [{ content := some { parts := some [] } }] }

def envBad : Env :=
  { hash := fun s => s
    encode := fun _ => EmbedResult.ok []
    db := fun _ _ => DbResult.rows ["ctx"]
    topK := 3
    ttl := 3600
    maxsize := 100
    completion := fun _ => HttpResult.success badBody
    maxRetries := 3 }

-- ## Theorems

theorem chunkLoop_spec (words : List String) (cs s : Nat) (hs : 0 < s) (hsc : s ≤ cs) :
    ∀ fuel i, i < words.length → words.length ≤ i + fuel →
      0 < (chunkLoop words cs s i fuel).length ∧
      (∀ k, k < (chunkLoop words cs s i fuel).length →
        (chunkLoop words cs s i fuel).getD k [] = (words.drop (i + k * s)).take cs) ∧
      (∀ k, k + 1 < (chunkLoop words cs s i fuel).length → i + k * s + cs < words.length) ∧
      words.length ≤ i + ((chunkLoop words cs s i fuel).length - 1) * s + cs := by
  intro fuel
  induction fuel with
  | zero => intro i hi hle; omega
  | succ fuel ih =>
    intro i hi hle
    by_cases hend : words.length ≤ i + cs
    · simp only [chunkLoop, if_pos hi, if_pos hend]
      refine ⟨by simp, ?_, ?_, ?_⟩
      · intro k hk
        simp only [List.length_cons, List.length_nil] at hk
        interval_cases k
        simp
      · intro k hk
        simp at hk
      · simpa using hend
    · have hi' : i + s < words.length := by omega
      have hle' : words.length ≤ (i + s) + fuel := by omega
      obtain ⟨hpos, hget, hmid, hlast⟩ := ih (i + s) hi' hle'
      simp only [chunkLoop, if_pos hi, if_neg hend]
      refine ⟨by simp, ?_, ?_, ?_⟩
      · intro k hk
        cases k with
        | zero => simp
        | succ k =>
          simp only [List.getD_cons_succ]
          rw [hget k (by simpa using hk)]
          have : i + (k + 1) * s = i + s + k * s := by ring
          rw [this]
      · intro k hk
        cases k with
        | zero => omega
        | succ k =>
          have := hmid k (by simpa using hk)
          have heq : i + s + k * s = i + (k + 1) * s := by ring
          omega
      · simp only [List.length_cons]
        have hlen : (chunkLoop words cs s (i + s) fuel).length =
            ((chunkLoop words cs s (i + s) fuel).length - 1) + 1 := by omega
        have : (chunkLoop words cs s (i + s) fuel).length * s =
            ((chunkLoop words cs s (i + s) fuel).length - 1) * s + s := by
          conv_lhs => rw [hlen]
          ring
        simp only [Nat.add_sub_cancel]
        omega

/-- C7: chunk_text on a text longer than chunk_size produces sliding windows
with stride chunk_size − overlap, window k covering word indices
[k*stride, min(k*stride + chunk_size, total)), stopping once a window reaches
the end; consecutive chunks share exactly `overlap` words at the boundary; on
100 distinct words with chunk_size = 30, overlap = 10 it yields exactly the 5
chunks covering [0,30) [20,50) [40,70) [60,90) [80,100); and a text of at most
chunk_size words is returned as a single chunk equal to the original text. -/
theorem chunk_text_window_spec (words : List String) (cs ov : Nat) :
    (words.length ≤ cs → chunk_text words cs ov = Except.ok [words]) ∧
    (ov < cs → cs < words.length →
      ∃ chunks, chunk_text words cs ov = Except.ok chunks ∧ 0 < chunks.length ∧
        (∀ k, k < chunks.length →
          chunks.getD k [] = (words.drop (k * (cs - ov))).take cs) ∧
        (∀ k, k + 1 < chunks.length → k * (cs - ov) + cs < words.length) ∧
        words.length ≤ (chunks.length - 1) * (cs - ov) + cs ∧
        (∀ j, j + 1 < chunks.length →
          (chunks.getD j []).drop (cs - ov) = (chunks.getD (j + 1) []).take ov ∧
          ((chunks.getD j []).drop (cs - ov)).length = ov)) ∧
    chunk_text exWords 30 10 = Except.ok [exWords.take 30, (exWords.drop 20).take 30,
      (exWords.drop 40).take 30, (exWords.drop 60).take 30, (exWords.drop 80).take 30] := by
  refine ⟨?_, ?_, ?_⟩
  · intro hle
    simp [chunk_text, hle]
  · intro hov hlen
    have hs : 0 < cs - ov := by omega
    have hsc : cs - ov ≤ cs := by omega
    have hne : ov ≠ cs := by omega
    have hnlt : ¬ cs < ov := by omega
    have hnle : ¬ words.length ≤ cs := by omega
    refine ⟨chunkLoop words cs (cs - ov) 0 words.length, ?_, ?_⟩
    · simp [chunk_text, hnle, hne, hnlt]
    obtain ⟨hpos, hget, hmid, hlast⟩ :=
      chunkLoop_spec words cs (cs - ov) hs hsc words.length 0 (by omega) (by omega)
    simp only [Nat.zero_add] at hget hmid hlast
    refine ⟨hpos, hget, hmid, hlast, ?_⟩
    intro j hj
    have hgj := hget j (by omega)
    have hgj1 := hget (j + 1) hj
    have hm := hmid j hj
    rw [hgj, hgj1]
    have hsum : cs - (cs - ov) = ov := by omega
    have hidx : (j + 1) * (cs - ov) = j * (cs - ov) + (cs - ov) := by ring
    constructor
    · rw [List.drop_take, List.drop_drop, List.take_take]
      rw [hsum, Nat.min_eq_left (le_of_lt hov), hidx, Nat.add_comm (j * (cs - ov))]
    · rw [List.drop_take, List.drop_drop, hsum]
      simp only [List.length_take, List.length_drop]
      omega
  · rfl

/-- C7 witness: a one-word text with chunk_size 3 is returned whole. -/
theorem chunk_text_window_spec_witness :
    chunk_text ["alpha"] 3 1 = Except.ok [["alpha"]] :=
  (chunk_text_window_spec ["alpha"] 3 1).1 (by decide)

/-- C10: outside the precondition overlap < chunk_size, chunk_text on a text
longer than chunk_size raises ValueError when overlap = chunk_size (zero
stride in range()) and returns an empty chunk list when overlap > chunk_size
(negative stride, empty range); under overlap < chunk_size it is total. -/
theorem chunk_text_overlap_edge (words : List String) (cs : Nat) (h : cs < words.length) :
    chunk_text words cs cs = Except.error () ∧
    (∀ ov, cs < ov → chunk_text words cs ov = Except.ok []) ∧
    (∀ ov, ov < cs → ∃ chunks, chunk_text words cs ov = Except.ok chunks) := by
  have hnle : ¬ words.length ≤ cs := by omega
  refine ⟨?_, ?_, ?_⟩
  · simp [chunk_text, hnle]
  · intro ov hov
    have hne : ov ≠ cs := by omega
    simp [chunk_text, hnle, hne, hov]
  · intro ov hov
    have hne : ov ≠ cs := by omega
    have hnlt : ¬ cs < ov := by omega
    exact ⟨chunkLoop words cs (cs - ov) 0 words.length,
      by simp [chunk_text, hnle, hne, hnlt]⟩

/-- C10 witness: on four words with chunk_size 2, overlap 2 raises, overlap 5
yields no chunks, overlap 1 succeeds. -/
theorem chunk_text_overlap_edge_witness :
    chunk_text ["a", "b", "c", "d"] 2 2 = Except.error () ∧
    chunk_text ["a", "b", "c", "d"] 2 5 = Except.ok [] ∧
    ∃ chunks, chunk_text ["a", "b", "c", "d"] 2 1 = Except.ok chunks :=
  ⟨(chunk_text_overlap_edge ["a", "b", "c", "d"] 2 (by decide)).1,
   (chunk_text_overlap_edge ["a", "b", "c", "d"] 2 (by decide)).2.1 5 (by decide),
   (chunk_text_overlap_edge ["a", "b", "c", "d"] 2 (by decide)).2.2 1 (by decide)⟩

-- When every outcome is transient, the retry loop runs all remaining
-- attempts and re-raises.
theorem askGeminiLoop_all_transient (outcomes : Nat → HttpResult)
    (h : ∀ n, isTransient (outcomes n) = true) :
    ∀ m i, 1 ≤ m → askGeminiLoop outcomes i m = (Except.error (), i + m) := by
  intro m
  induction m with
  | zero => intro i h1; omega
  | succ m ih =>
    intro i _
    have hr : gemini_attempt (outcomes i) = AttemptOutcome.reraise := by
      have := h i
      unfold isTransient at this
      revert this
      cases gemini_attempt (outcomes i) <;> simp
    simp only [askGeminiLoop, hr]
    cases m with
    | zero => simp
    | succ m =>
      rw [if_neg (by omega), ih (i + 1) (by omega)]
      have harith : i + 1 + (m + 1) = i + (m + 1 + 1) := by omega
      rw [harith]

/-- C5 counterexample: with a transport that times out on every attempt and
MAX_RETRIES = 3, ask_gemini performs 3 attempts and then re-raises the
exception (reraise=True) instead of returning a fallback apology string. -/
theorem ask_gemini_retry_exhaustion_counterexample :
    (ask_gemini "q" "c" (fun _ => HttpResult.timeout) 3).result = Except.error () ∧
    (ask_gemini "q" "c" (fun _ => HttpResult.timeout) 3).attempts = 3 :=
  ⟨rfl, rfl⟩

/-- C5 amended: if the transport fails with a transient failure on every
attempt, ask_gemini invokes the underlying call exactly MAX_RETRIES times and
then re-raises the last transient exception to its caller (tenacity
reraise=True) instead of returning a fallback string; the fallback apology is
produced only later, by handle_question's exception handler. -/
theorem ask_gemini_retry_exhaustion (question context : String)
    (outcomes : Nat → HttpResult) (m : Nat) (hm : 1 ≤ m)
    (h : ∀ n, isTransient (outcomes n) = true) :
    (ask_gemini question context outcomes m).result = Except.error () ∧
    (ask_gemini question context outcomes m).attempts = m := by
  have hloop := askGeminiLoop_all_transient outcomes h m 0 hm
  constructor
  · show (askGeminiLoop outcomes 0 m).1 = Except.error ()
    rw [hloop]
  · show (askGeminiLoop outcomes 0 m).2 = m
    rw [hloop]
    simp

/-- C5 witness: two connection errors with MAX_RETRIES = 2. -/
theorem ask_gemini_retry_exhaustion_witness :
    (ask_gemini "q" "c" (fun _ => HttpResult.connError) 2).result = Except.error () ∧
    (ask_gemini "q" "c" (fun _ => HttpResult.connError) 2).attempts = 2 :=
  ask_gemini_retry_exhaustion "q" "c" (fun _ => HttpResult.connError) 2 (by omega)
    (fun _ => rfl)

/-- C4 counterexample: an HTTP 500 response is NOT retried, contradicting the
claim that 5xx responses are transient failures retried up to MAX_RETRIES
total attempts: with MAX_RETRIES = 3 and the transport answering 500 on every
attempt, ask_gemini performs exactly one attempt and immediately returns the
request-error fallback. -/
theorem ask_gemini_5xx_counterexample :
    (ask_gemini "q" "c" (fun _ => HttpResult.httpStatus 500) 3).attempts = 1 ∧
    (ask_gemini "q" "c" (fun _ => HttpResult.httpStatus 500) 3).result =
      Except.ok fallback_request_error ∧
    (1 : Nat) ≠ 3 :=
  ⟨rfl, rfl, by decide⟩

/-- C4 amended: the completion client retries only network timeouts,
connection failures, other request-layer failures, and HTTP 429; every other
HTTP error status — any 4xx other than 429 AND any 5xx — gets exactly one
attempt (no retry) and immediately yields the fixed request-error fallback,
while all-transient streams consume exactly MAX_RETRIES attempts. -/
theorem ask_gemini_retry_classification (question context : String) (m : Nat)
    (hm : 1 ≤ m) :
    (∀ r, isTransient r = true ↔
      (r = HttpResult.timeout ∨ r = HttpResult.connError ∨
       r = HttpResult.requestError ∨ r = HttpResult.httpStatus 429)) ∧
    (∀ outcomes c, outcomes 0 = HttpResult.httpStatus c → c ≠ 429 →
      (ask_gemini question context outcomes m).result = Except.ok fallback_request_error ∧
      (ask_gemini question context outcomes m).attempts = 1) ∧
    (∀ outcomes, (∀ n, isTransient (outcomes n) = true) →
      (ask_gemini question context outcomes m).attempts = m) := by
  refine ⟨?_, ?_, ?_⟩
  · intro r
    have hiff : isTransient r = true ↔ gemini_attempt r = AttemptOutcome.reraise := by
      unfold isTransient
      cases hg : gemini_attempt r <;> simp
    rw [hiff]
    cases r with
    | success body =>
      cases hp : parse_response body <;> simp [gemini_attempt, hp]
    | httpStatus code =>
      by_cases hc : code = 429
      · subst hc; simp [gemini_attempt]
      · simp [gemini_attempt, hc]
    | timeout => simp [gemini_attempt]
    | connError => simp [gemini_attempt]
    | requestError => simp [gemini_attempt]
    | otherError => simp [gemini_attempt]
  · intro outcomes c h0 hc
    cases m with
    | zero => omega
    | succ m =>
      have hatt : gemini_attempt (outcomes 0) = AttemptOutcome.ret fallback_request_error := by
        rw [h0]; simp [gemini_attempt, hc]
      constructor
      · show (askGeminiLoop outcomes 0 (m + 1)).1 = Except.ok fallback_request_error
        simp only [askGeminiLoop, hatt]
      · show (askGeminiLoop outcomes 0 (m + 1)).2 = 1
        simp only [askGeminiLoop, hatt]
  · intro outcomes h
    show (askGeminiLoop outcomes 0 m).2 = m
    rw [askGeminiLoop_all_transient outcomes h m 0 hm]
    simp

/-- C4 witness: 429 is classified transient; a 404 stream is answered with
the request-error fallback after exactly one attempt. -/
theorem ask_gemini_retry_classification_witness :
    isTransient (HttpResult.httpStatus 429) = true ∧
    (ask_gemini "q" "c" (fun _ => HttpResult.httpStatus 404) 2).result =
      Except.ok fallback_request_error ∧
    (ask_gemini "q" "c" (fun _ => HttpResult.httpStatus 404) 2).attempts = 1 :=
  ⟨((ask_gemini_retry_classification "q" "c" 2 (by omega)).1
      (HttpResult.httpStatus 429)).mpr (by simp),
   ((ask_gemini_retry_classification "q" "c" 2 (by omega)).2.1
      (fun _ => HttpResult.httpStatus 404) 404 rfl (by omega)).1,
   ((ask_gemini_retry_classification "q" "c" 2 (by omega)).2.1
      (fun _ => HttpResult.httpStatus 404) 404 rfl (by omega)).2⟩

/-- C3 counterexample: the blocking and non-blocking completion calls do NOT
share the retry policy: under a transport that times out on every attempt
with MAX_RETRIES = 3, ask_gemini performs 3 attempts and re-raises, while
ask_gemini_async performs exactly 1 attempt and returns the request-error
fallback. -/
theorem sync_async_retry_counterexample :
    (ask_gemini "q" "c" (fun _ => HttpResult.timeout) 3).attempts = 3 ∧
    (ask_gemini_async "q" "c" HttpResult.timeout).attempts = 1 ∧
    (ask_gemini "q" "c" (fun _ => HttpResult.timeout) 3).result = Except.error () ∧
    (ask_gemini_async "q" "c" HttpResult.timeout).result =
      Except.ok fallback_request_error ∧
    (3 : Nat) ≠ 1 :=
  ⟨rfl, rfl, rfl, rfl, by decide⟩

/-- C3 amended: ask_gemini and ask_gemini_async build identical prompts via
the shared create_prompt template, but their failure policies differ: the
non-blocking call always performs exactly one attempt (it has no retry
decorator), while the blocking call retries transient failures up to
MAX_RETRIES total attempts. -/
theorem sync_async_prompt_and_retry (question context : String) :
    (∀ outcomes m r, (ask_gemini question context outcomes m).prompt =
      (ask_gemini_async question context r).prompt) ∧
    (∀ r, (ask_gemini_async question context r).attempts = 1) ∧
    (∀ outcomes m, 1 ≤ m → (∀ n, isTransient (outcomes n) = true) →
      (ask_gemini question context outcomes m).attempts = m) := by
  refine ⟨fun _ _ _ => rfl, fun _ => rfl, ?_⟩
  intro outcomes m hm h
  show (askGeminiLoop outcomes 0 m).2 = m
  rw [askGeminiLoop_all_transient outcomes h m 0 hm]
  simp

/-- C3 witness: prompts agree and attempt counts diverge on a concrete
request-error stream with MAX_RETRIES = 2. -/
theorem sync_async_prompt_and_retry_witness :
    (ask_gemini "q" "ctx" (fun _ => HttpResult.requestError) 2).prompt =
      (ask_gemini_async "q" "ctx" HttpResult.requestError).prompt ∧
    (ask_gemini_async "q" "ctx" HttpResult.requestError).attempts = 1 ∧
    (ask_gemini "q" "ctx" (fun _ => HttpResult.requestError) 2).attempts = 2 :=
  ⟨(sync_async_prompt_and_retry "q" "ctx").1 (fun _ => HttpResult.requestError) 2
      HttpResult.requestError,
   (sync_async_prompt_and_retry "q" "ctx").2.1 HttpResult.requestError,
   (sync_async_prompt_and_retry "q" "ctx").2.2 (fun _ => HttpResult.requestError) 2
      (by omega) (fun _ => rfl)⟩

-- Answer of the database step, as a function of the store outcome alone.
theorem grcQuery_fst (env : Env) (v : Embedding) (top_k : Nat) (st : QState) :
    (grcQuery env v top_k st).1 =
      match env.db v top_k with
      | DbResult.rows (r :: rs) => String.intercalate "\n\n" (r :: rs)
      | _ => "" := by
  unfold grcQuery
  cases env.db v top_k with
  | rows rs => cases rs <;> rfl
  | exc => rfl
  | connExc => rfl

theorem grcQuery_state (env : Env) (v : Embedding) (top_k : Nat) (st : QState) :
    (grcQuery env v top_k st).2 = st := by
  unfold grcQuery
  cases env.db v top_k with
  | rows rs => cases rs <;> rfl
  | exc => rfl
  | connExc => rfl

-- get_relevant_context only touches question_to_embedding and the
-- retrieval counter.
theorem grc_state (env : Env) (q : String) (top_k : Nat) (st : QState) :
    (get_relevant_context env q top_k st).2.response_cache = st.response_cache ∧
    (get_relevant_context env q top_k st).2.now = st.now ∧
    (get_relevant_context env q top_k st).2.retrievalCalls = st.retrievalCalls + 1 ∧
    (get_relevant_context env q top_k st).2.completionCalls = st.completionCalls ∧
    (get_relevant_context env q top_k st).2.geminiAttempts = st.geminiAttempts := by
  unfold get_relevant_context
  simp only []
  cases hd : dictLookup st.question_to_embedding (env.hash q) with
  | some v => simp [grcQuery_state]
  | none =>
    cases he : env.encode q with
    | exc => simp
    | ok v => simp [grcQuery_state]

theorem grc_answer (env : Env) (q : String) (top_k : Nat) (st : QState) :
    (get_relevant_context env q top_k st).1 =
      match grcEmbedding env q st with
      | none => ""
      | some v => (grcQuery env v top_k st).1 := by
  unfold get_relevant_context grcEmbedding
  simp only []
  cases hd : dictLookup st.question_to_embedding (env.hash q) with
  | some v =>
    simp only []
    rw [grcQuery_fst, grcQuery_fst]
  | none =>
    cases he : env.encode q with
    | exc => simp
    | ok v =>
      simp only []
      rw [grcQuery_fst, grcQuery_fst]

theorem ask_gemini_st_state (env : Env) (q c : String) (st : QState) :
    (ask_gemini_st env q c st).2.response_cache = st.response_cache ∧
    (ask_gemini_st env q c st).2.now = st.now ∧
    (ask_gemini_st env q c st).2.retrievalCalls = st.retrievalCalls ∧
    (ask_gemini_st env q c st).2.completionCalls = st.completionCalls + 1 ∧
    (ask_gemini_st env q c st).2.question_to_embedding = st.question_to_embedding :=
  ⟨rfl, rfl, rfl, rfl, rfl⟩

-- The cache-miss body of handle_question leaves the response cache and the
-- clock untouched, and performs exactly one retrieval and one completion
-- call.
theorem hq_miss_state (env : Env) (q : String) (st : QState) :
    (hq_miss env q st).2.response_cache = st.response_cache ∧
    (hq_miss env q st).2.now = st.now ∧
    (hq_miss env q st).2.retrievalCalls = st.retrievalCalls + 1 ∧
    (hq_miss env q st).2.completionCalls = st.completionCalls + 1 := by
  have h2 := grc_state env q env.topK st
  unfold hq_miss ask_gemini_st
  simp only []
  exact ⟨h2.1, h2.2.1, h2.2.2.1, by rw [h2.2.2.2.1]⟩

-- A freshly inserted cache entry is found by any lookup before its expiry.
theorem cacheLookup_insert_self (cache : List CacheEntry) (k v : String)
    (now ttl maxsize now2 : Nat) (_hms : 1 ≤ maxsize) (hexp : now2 < now + ttl) :
    cacheLookup (cacheInsert cache k v now ttl maxsize) k now2 = some v := by
  unfold cacheInsert cacheLookup
  simp only []
  set live := (cache.filter (fun e => decide (now < e.expiry))).filter
    (fun e => !(e.key == k)) with hlive
  set room := if maxsize ≤ live.length then live.drop (live.length + 1 - maxsize) else live
    with hroom
  have hmem : ∀ e ∈ room, (e.key == k) = false := by
    intro e he
    have helive : e ∈ live := by
      rw [hroom] at he
      by_cases hc : maxsize ≤ live.length
      · rw [if_pos hc] at he
        exact List.mem_of_mem_drop he
      · rwa [if_neg hc] at he
    rw [hlive] at helive
    have := (List.mem_filter.mp helive).2
    simpa using this
  have hnone : room.find? (fun e => e.key == k && decide (now2 < e.expiry)) = none := by
    rw [List.find?_eq_none]
    intro e he
    simp [hmem e he]
  rw [List.find?_append, hnone]
  simp [hexp]

-- Python dict lemmas for question_to_embedding.
theorem dictInsert_fresh (d : List (String × Embedding)) (k : String) (v : Embedding)
    (h : dictLookup d k = none) : dictInsert d k v = d ++ [(k, v)] := by
  unfold dictInsert
  rw [h]

theorem dictLookup_append_none (d : List (String × Embedding)) (k k' : String)
    (v : Embedding) (h : dictLookup d k' = none) (hk : k' ≠ k) :
    dictLookup (d ++ [(k, v)]) k' = none := by
  unfold dictLookup at h ⊢
  have hf : d.find? (fun p => p.1 == k') = none := by
    cases hf : d.find? (fun p => p.1 == k') with
    | none => rfl
    | some p => rw [hf] at h; simp at h
  rw [List.find?_append, hf]
  simp [Ne.symm hk]

-- Embedding-cache content after a fresh, successfully embedded question:
-- the new pair is appended to the dict (and survives even though the db
-- query may fail afterwards).
theorem grc_q2e_fresh (env : Env) (q : String) (top_k : Nat) (st : QState) (v : Embedding)
    (hl : dictLookup st.question_to_embedding (env.hash q) = none)
    (he : env.encode q = EmbedResult.ok v) :
    (get_relevant_context env q top_k st).2.question_to_embedding =
      st.question_to_embedding ++ [(env.hash q, v)] := by
  unfold get_relevant_context
  simp only []
  rw [hl]
  simp only []
  rw [he]
  simp only []
  rw [grcQuery_state]
  simp only []
  exact dictInsert_fresh _ _ _ hl

/-- C6 (code behaviour at the failing input): the question-embedding cache of
the query path, the plain dict question_to_embedding, grows by one entry for
every distinct successfully embedded question and is never evicted, so its
size is unbounded — it exceeds every configured capacity once enough
distinct questions arrive.  (The ingestion-side embedding_cache is a bounded
LRUCache, but this query-side cache is not.) -/
theorem question_to_embedding_unbounded (env : Env) (qs : List String) (st : QState)
    (henc : ∀ q ∈ qs, env.encode q ≠ EmbedResult.exc)
    (hfresh : ∀ q ∈ qs, dictLookup st.question_to_embedding (env.hash q) = none)
    (hnodup : (qs.map env.hash).Nodup) :
    (runRetrieval env qs st).question_to_embedding.length =
      st.question_to_embedding.length + qs.length := by
  induction qs generalizing st with
  | nil => simp [runRetrieval]
  | cons q qs ih =>
    have hv : ∃ v, env.encode q = EmbedResult.ok v := by
      cases he : env.encode q with
      | ok v => exact ⟨v, rfl⟩
      | exc => exact absurd he (henc q (by simp))
    obtain ⟨v, he⟩ := hv
    have hq2e := grc_q2e_fresh env q env.topK st v (hfresh q (by simp)) he
    rw [List.map_cons] at hnodup
    have hnd := List.nodup_cons.mp hnodup
    have hfresh' : ∀ q' ∈ qs,
        dictLookup (get_relevant_context env q env.topK st).2.question_to_embedding
          (env.hash q') = none := by
      intro q' hq'
      rw [hq2e]
      refine dictLookup_append_none _ _ _ _ (hfresh q' (by simp [hq'])) ?_
      intro hcontra
      exact hnd.1 (by rw [← hcontra]; exact List.mem_map_of_mem env.hash hq')
    have IH := ih (get_relevant_context env q env.topK st).2
      (fun q' hq' => henc q' (by simp [hq'])) hfresh' hnd.2
    show (runRetrieval env qs (get_relevant_context env q env.topK st).2).question_to_embedding.length = _
    rw [IH, hq2e]
    simp only [List.length_append, List.length_cons, List.length_nil]
    omega

/-- C6 witness: three distinct questions leave three dict entries. -/
theorem question_to_embedding_unbounded_witness :
    (runRetrieval envRows ["a", "b", "c"] initState).question_to_embedding.length = 3 := by
  have h := question_to_embedding_unbounded envRows ["a", "b", "c"] initState
    (by decide) (by decide) (by decide)
  simpa using h

/-- C9: get_relevant_context never propagates a failure: when the embedding
step fails, when the store connection or query raises, or when the store
returns zero rows, it returns the empty string; when the store returns a
nonempty row list it returns the contents joined by a double newline in
store order. -/
theorem get_relevant_context_spec (env : Env) (question : String) (top_k : Nat)
    (st : QState) :
    (grcEmbedding env question st = none →
      (get_relevant_context env question top_k st).1 = "") ∧
    (∀ v, grcEmbedding env question st = some v → env.db v top_k = DbResult.connExc →
      (get_relevant_context env question top_k st).1 = "") ∧
    (∀ v, grcEmbedding env question st = some v → env.db v top_k = DbResult.exc →
      (get_relevant_context env question top_k st).1 = "") ∧
    (∀ v, grcEmbedding env question st = some v → env.db v top_k = DbResult.rows [] →
      (get_relevant_context env question top_k st).1 = "") ∧
    (∀ v r rs, grcEmbedding env question st = some v →
      env.db v top_k = DbResult.rows (r :: rs) →
      (get_relevant_context env question top_k st).1 =
        String.intercalate "\n\n" (r :: rs)) := by
  refine ⟨?_, ?_, ?_, ?_, ?_⟩
  · intro h
    rw [grc_answer, h]
  · intro v h hdb
    rw [grc_answer, h]
    simp only [grcQuery_fst]
    rw [hdb]
  · intro v h hdb
    rw [grc_answer, h]
    simp only [grcQuery_fst]
    rw [hdb]
  · intro v h hdb
    rw [grc_answer, h]
    simp only [grcQuery_fst]
    rw [hdb]
  · intro v r rs h hdb
    rw [grc_answer, h]
    simp only [grcQuery_fst]
    rw [hdb]

/-- C9 witness: with a store answering two chunks, retrieval returns them
joined by a double newline. -/
theorem get_relevant_context_spec_witness :
    (get_relevant_context envRows "q" 3 initState).1 =
      String.intercalate "\n\n" ["c1", "c2"] :=
  (get_relevant_context_spec envRows "q" 3 initState).2.2.2.2 [] "c1" ["c2"] rfl rfl

-- On a cache miss whose body returns a string, handle_question caches that
-- string — whatever it is — under the question hash.
theorem handle_question_miss_ok (env : Env) (q : String) (st : QState) (a : String)
    (hmiss : cacheLookup st.response_cache (env.hash q) st.now = none)
    (hok : (hq_miss env q st).1 = Except.ok a) :
    handle_question env q st =
      (Except.ok a,
       withCache (hq_miss env q st).2
         (cacheInsert (hq_miss env q st).2.response_cache (env.hash q) a
           (hq_miss env q st).2.now env.ttl env.maxsize)) := by
  unfold handle_question withCache
  simp only []
  rw [hmiss]
  simp only []
  rw [hok]

-- On a cache miss whose body raises, handle_question converts the exception
-- to the fixed apology and leaves the cache alone.
theorem handle_question_miss_error (env : Env) (q : String) (st : QState)
    (hmiss : cacheLookup st.response_cache (env.hash q) st.now = none)
    (herr : (hq_miss env q st).1 = Except.error ()) :
    handle_question env q st = (Except.ok fallback_handle, (hq_miss env q st).2) := by
  unfold handle_question
  simp only []
  rw [hmiss]
  simp only []
  rw [herr]

/-- C8 counterexample: when the completion transport fails transiently on
every attempt, the blocking query operation caches nothing, so two identical
questions within the TTL window trigger retrieval and completion twice, not
once as claimed. -/
theorem response_cache_error_retrigger_counterexample :
    (handle_question envRows "q" initState).1 = Except.ok fallback_handle ∧
    (handle_question envRows "q" (handle_question envRows "q" initState).2).2.retrievalCalls = 2 ∧
    (handle_question envRows "q" (handle_question envRows "q" initState).2).2.completionCalls = 2 ∧
    (2 : Nat) ≠ 1 :=
  ⟨rfl, rfl, rfl, by decide⟩

/-- C8 amended: a present, unexpired cache entry is returned immediately with
no retrieval and no completion call (the state, counters included, is
unchanged); and if the first call's retrieval-and-completion body returns a
string (a real answer or a fallback apology — not an exception), then a
second identical question after δ < TTL is a pure cache hit: it returns the
same answer, leaves the state unchanged, and retrieval/completion ran exactly
once across both calls. -/
theorem response_cache_hit_and_single_trigger (env : Env) (q : String) (st : QState)
    (δ : Nat) (a : String) (hδ : δ < env.ttl) (hms : 1 ≤ env.maxsize)
    (hmiss : cacheLookup st.response_cache (env.hash q) st.now = none)
    (hok : (hq_miss env q st).1 = Except.ok a) :
    (∀ st2 b, cacheLookup st2.response_cache (env.hash q) st2.now = some b →
      handle_question env q st2 = (Except.ok b, st2)) ∧
    (handle_question env q st).1 = Except.ok a ∧
    (handle_question env q st).2.retrievalCalls = st.retrievalCalls + 1 ∧
    (handle_question env q st).2.completionCalls = st.completionCalls + 1 ∧
    (∀ st1, handle_question env q st = (Except.ok a, st1) →
      handle_question env q (withNow st1 (st1.now + δ)) =
        (Except.ok a, withNow st1 (st1.now + δ))) := by
  have hmain := handle_question_miss_ok env q st a hmiss hok
  have hstate := hq_miss_state env q st
  refine ⟨?_, ?_, ?_, ?_, ?_⟩
  · intro st2 b hhit
    unfold handle_question
    simp only []
    rw [hhit]
  · rw [hmain]
  · rw [hmain]
    simpa [withCache] using hstate.2.2.1
  · rw [hmain]
    simpa [withCache] using hstate.2.2.2
  · intro st1 h1
    rw [hmain] at h1
    injection h1 with h1a h1b
    subst h1b
    unfold handle_question
    simp only [withNow, withCache]
    rw [cacheLookup_insert_self _ _ _ _ _ _ _ hms (by omega)]

/-- C8 witness: a successful completion is returned and the second call hits
the cache. -/
theorem response_cache_hit_and_single_trigger_witness :
    (handle_question envGood "q" initState).1 = Except.ok "the answer" ∧
    handle_question envGood "q"
        (withNow (handle_question envGood "q" initState).2
          ((handle_question envGood "q" initState).2.now + 5)) =
      (Except.ok "the answer",
       withNow (handle_question envGood "q" initState).2
         ((handle_question envGood "q" initState).2.now + 5)) :=
  ⟨(response_cache_hit_and_single_trigger envGood "q" initState 5 "the answer"
      (by decide) (by decide) rfl rfl).2.1,
   (response_cache_hit_and_single_trigger envGood "q" initState 5 "the answer"
      (by decide) (by decide) rfl rfl).2.2.2.2
     (handle_question envGood "q" initState).2 rfl⟩

/-- C1 counterexample: a fallback apology produced by the completion client
(HTTP 404) IS written into the response cache by handle_question, and the
subsequent identical question within the TTL window is served from the cache
without re-invoking retrieval or completion. -/
theorem error_answer_cached_counterexample :
    (handle_question env404 "q" initState).1 = Except.ok fallback_request_error ∧
    cacheLookup (handle_question env404 "q" initState).2.response_cache "q"
      (handle_question env404 "q" initState).2.now = some fallback_request_error ∧
    (handle_question env404 "q" (handle_question env404 "q" initState).2).2.retrievalCalls = 1 ∧
    (handle_question env404 "q" (handle_question env404 "q" initState).2).2.completionCalls = 1 :=
  ⟨rfl, rfl, rfl, rfl⟩

/-- C1 amended: both query operations cache every completion result that is
returned as a string, fallback apologies included; only an exception from
the completion path (e.g. transient exhaustion of the blocking client)
leaves the response cache unchanged, in which case the apology returned to
the caller is not cached. -/
theorem fallback_caching (env : Env) (q : String) (st : QState) (a : String)
    (hms : 1 ≤ env.maxsize) (h0 : 0 < env.ttl)
    (hmiss : cacheLookup st.response_cache (env.hash q) st.now = none) :
    ((hq_miss env q st).1 = Except.ok a →
      cacheLookup (handle_question env q st).2.response_cache (env.hash q)
        (handle_question env q st).2.now = some a) ∧
    ((hq_miss env q st).1 = Except.error () →
      (handle_question env q st).2.response_cache = st.response_cache ∧
      (handle_question env q st).1 = Except.ok fallback_handle) ∧
    (∀ b, (ask_gemini_async q (get_relevant_context env q env.topK st).1
        (env.completion (get_relevant_context env q env.topK st).2.geminiAttempts)).result
          = Except.ok b →
      cacheLookup (handle_question_async env q st).2.response_cache (env.hash q)
        (handle_question_async env q st).2.now = some b) := by
  refine ⟨?_, ?_, ?_⟩
  · intro hok
    rw [handle_question_miss_ok env q st a hmiss hok]
    simp only [withCache]
    exact cacheLookup_insert_self _ _ _ _ _ _ _ hms (by omega)
  · intro herr
    rw [handle_question_miss_error env q st hmiss herr]
    exact ⟨(hq_miss_state env q st).1, rfl⟩
  · intro b hb
    unfold handle_question_async
    simp only []
    rw [hmiss]
    simp only []
    rw [hb]
    simp only []
    exact cacheLookup_insert_self _ _ _ _ _ _ _ hms (by omega)

/-- C1 witness: the 404 fallback is cached under the question hash. -/
theorem fallback_caching_witness :
    cacheLookup (handle_question env404 "q2" initState).2.response_cache "q2"
      (handle_question env404 "q2" initState).2.now = some fallback_request_error :=
  (fallback_caching env404 "q2" initState fallback_request_error
    (by decide) (by decide) rfl).1 rfl

/-- C2 counterexample: handle_question_async propagates an exception to its
caller: a 200 response whose first candidate has an empty parts list makes
the parts[0] access raise IndexError, which no handler in
ask_gemini_async or handle_question_async catches. -/
theorem handle_question_async_raises_counterexample :
    (handle_question_async envBad "q" initState).1 = Except.error () :=
  rfl

/-- C2 amended: the blocking handle_question never raises — it always
returns Except.ok of some string (a real answer or a fixed apology) — while
the non-blocking handle_question_async forwards the completion call's
outcome unchanged on a cache miss, exception included. -/
theorem handle_question_total (env : Env) (q : String) (st : QState) :
    (∃ s, (handle_question env q st).1 = Except.ok s) ∧
    (cacheLookup st.response_cache (env.hash q) st.now = none →
      (handle_question_async env q st).1 =
        (ask_gemini_async q (get_relevant_context env q env.topK st).1
          (env.completion (get_relevant_context env q env.topK st).2.geminiAttempts)).result) := by
  constructor
  · unfold handle_question
    simp only []
    cases hc : cacheLookup st.response_cache (env.hash q) st.now with
    | some a => exact ⟨a, rfl⟩
    | none =>
      cases hr : (hq_miss env q st).1 with
      | ok a => exact ⟨a, rfl⟩
      | error e => exact ⟨fallback_handle, rfl⟩
  · intro hmiss
    unfold handle_question_async
    simp only []
    rw [hmiss]
    simp only []
    cases ht : (ask_gemini_async q (get_relevant_context env q env.topK st).1
        (env.completion (get_relevant_context env q env.topK st).2.geminiAttempts)).result with
    | ok a => rfl
    | error e => rfl

/-- C2 witness: on the malformed-body environment the async operation's
result is exactly the completion call's propagated exception. -/
theorem handle_question_total_witness :
    (handle_question_async envBad "q2" initState).1 =
      (ask_gemini_async "q2" (get_relevant_context envBad "q2" envBad.topK initState).1
        (envBad.completion
          (get_relevant_context envBad "q2" envBad.topK initState).2.geminiAttempts)).result :=
  (handle_question_total envBad "q2" initState).2 rfl

end PersonalBot
